import Mathlib

/-!
Verification of the Market-Dashboard data pipeline.

This file gives a shallow embedding, in Lean 4, of the parts of the
Market-Dashboard repository that the specification's testable claims are
about: the raw-data store (`src/storage.py`), the filename sanitization
and analytics helpers (`src/utils/data_helpers.py`), the fetch scheduler
(`src/fetcher.py`), the per-symbol analytics driver
(`src/analytics/calculator.py`), the signal columns of the indicator
engine (`src/analytics/technical_indicators.py`), the aggregator's
performance rankings (`src/analytics/aggregator.py`), and the CLI entry
scripts (`run_fetch.py`, `run_analytics.py`, `run_fred.py`,
`run_export.py`).

Modelling conventions:
* Python floats are modelled as rationals (`ℚ`); a pandas/JSON missing
  value (`None` / `NaN` cell) is `Option.none`.
* Python's `sorted` / `list.sort` is a stable sort; `List.insertionSort r`
  is used as the canonical stable sort with the same comparator semantics
  (an element is placed before every later element it compares
  less-or-equal to, so ties keep input order).  `sorted(key=k, reverse=True)`
  is the stable sort with relation `fun a b => k b ≤ k a`.
* Dates are ISO `YYYY-MM-DD` strings compared lexicographically, exactly
  as Python compares them.
* The on-disk JSON store is modelled as a map from path to file content;
  `datetime.utcnow()` is passed in explicitly as a `now` parameter.
-/

namespace MarketDashboard

/-! ## Python primitives -/

/-- Python's `<=` on strings: code-point-wise lexicographic comparison.
(The built-in `String.le` of Lean is byte-position based and does not
reduce in the kernel, so the comparison is spelled out over the
character lists.) -/
def pyStrLe (a b : String) : Prop :=
  List.Lex (· < ·) a.data b.data ∨ a.data = b.data

instance : DecidableRel pyStrLe := fun _ _ => inferInstanceAs (Decidable (_ ∨ _))

instance : IsTotal String pyStrLe :=
  ⟨fun a b => by
    rcases lt_trichotomy a.data b.data with h | h | h
    · exact Or.inl (Or.inl h)
    · exact Or.inl (Or.inr h)
    · exact Or.inr (Or.inl h)⟩

instance : IsTrans String pyStrLe :=
  ⟨fun a b c hab hbc => by
    rcases hab with hab | hab
    · rcases hbc with hbc | hbc
      · exact Or.inl (lt_trans (α := List Char) hab hbc)
      · exact Or.inl (hbc ▸ hab)
    · rcases hbc with hbc | hbc
      · exact Or.inl (hab ▸ hbc)
      · exact Or.inr (hab.trans hbc)⟩

/-! ## Raw data store (`src/storage.py`) -/

/-- One OHLCV bar, the element shape of the `data` array in
`data/raw/{symbol}.json`: `{date, open, high, low, close, volume}`.
The `open` field is called `open_` because `open` is a Lean keyword. -/
structure Bar where
  date : String
  open_ : ℚ
  high : ℚ
  low : ℚ
  close : ℚ
  volume : ℚ
deriving DecidableEq, Repr

/-- The content of a per-symbol raw data file
`{symbol, type, category, api_source, last_updated, data}`.
`last_updated` (a `datetime.utcnow().isoformat()` string in the source)
is modelled as an abstract timestamp. -/
structure SymbolFile where
  symbol : String
  type : String
  category : String
  api_source : String
  last_updated : Nat
  data : List Bar
deriving DecidableEq, Repr

/-- One entry of `data/metadata/update_status.json`:
`{last_updated, last_fetch_status, data_points}`.  The first two fields are
`Option`s because the priority code reads them with `.get`. -/
structure MetaEntry where
  last_updated : Option Nat
  last_fetch_status : Option String
  data_points : Nat
deriving DecidableEq, Repr

/-- The mutable on-disk state used by `DataStorage`: the per-path raw data
files and the symbol-keyed metadata map. -/
structure Storage where
  files : String → Option SymbolFile
  metadata : String → Option MetaEntry

/-- Filename sanitization from `DataStorage.get_symbol_file_path` (and
repeated verbatim in `data_helpers.load_symbol_raw_data` and
`aggregator.load_technical_data`):
`symbol.replace("-", "_").replace("^", "")`.  Both patterns are single
characters, so `replace` is a character map followed by a character
filter. -/
def sanitizeSymbol (s : String) : String :=
  String.mk ((s.data.map (fun c => if c = '-' then '_' else c)).filter (fun c => c ≠ '^'))

/-- `DataStorage.get_symbol_file_path`: `data/raw/{safe_symbol}.json`. -/
def getSymbolFilePath (symbol : String) : String :=
  "data/raw/" ++ sanitizeSymbol symbol ++ ".json"

/-- `DataStorage.load_symbol_data`: read the symbol's file if it exists. -/
def loadSymbolData (st : Storage) (symbol : String) : Option SymbolFile :=
  st.files (getSymbolFilePath symbol)

/-- The comparator of `combined_data.sort(key=lambda x: x['date'], reverse=True)`:
a stable descending sort by date. -/
def dateDesc (a b : Bar) : Prop := pyStrLe b.date a.date

instance : DecidableRel dateDesc := fun a b => inferInstanceAs (Decidable (pyStrLe b.date a.date))

instance : IsTotal Bar dateDesc := ⟨fun a b => total_of pyStrLe b.date a.date⟩

instance : IsTrans Bar dateDesc :=
  ⟨fun _ _ _ hab hbc => trans_of pyStrLe hbc hab⟩

/-- The merge step of `DataStorage.save_symbol_data` when a file already
exists: keep every existing bar, append only the new bars whose date is
not already present, then stable-sort by date descending. -/
def mergeData (existing newData : List Bar) : List Bar :=
  let existingDates := existing.map (·.date)
  let newDataPoints := newData.filter (fun d => !(existingDates.contains d.date))
  List.insertionSort dateDesc (existing ++ newDataPoints)

/-- `DataStorage.save_symbol_data`: merge (or sort, for a fresh file),
write the full structure to the symbol's path, then record a `success`
metadata entry with the combined data-point count. -/
def saveSymbolData (st : Storage) (now : Nat) (symbol symbolType category apiSource : String)
    (data : List Bar) : Storage :=
  let path := getSymbolFilePath symbol
  let combined : List Bar :=
    match st.files path with
    | some existing => mergeData existing.data data
    | none => List.insertionSort dateDesc data
  let fullData : SymbolFile :=
    { symbol := symbol, type := symbolType, category := category,
      api_source := apiSource, last_updated := now, data := combined }
  { files := fun p => if p = path then some fullData else st.files p,
    metadata := fun s =>
      if s = symbol then
        some { last_updated := some now, last_fetch_status := some "success",
               data_points := combined.length }
      else st.metadata s }

/-- `DataStorage.mark_symbol_failed`: record a `failed: {error}` metadata
entry with zero data points. -/
def markSymbolFailed (st : Storage) (now : Nat) (symbol error : String) : Storage :=
  { st with metadata := fun s =>
      if s = symbol then
        some { last_updated := some now, last_fetch_status := some ("failed: " ++ error),
               data_points := 0 }
      else st.metadata s }

/-! ## File-write traces (write discipline of `storage.py`, `aggregator.py`,
`data_helpers.py`)

A persisted-file operation is modelled as the sequence of filesystem
operations it performs.  A file path is a stem plus an extension, so that
`pathlib.Path.with_suffix` (which replaces the extension) is exact. -/

/-- A filesystem path split as stem + extension, mirroring how
`Path.with_suffix('.tmp')` rewrites only the extension. -/
structure PathName where
  stem : String
  ext : String
deriving DecidableEq, Repr

/-- A single filesystem operation: opening a path for writing and dumping
content into it, or atomically renaming one path over another. -/
inductive FsOp where
  | write (path : PathName) (content : String)
  | rename (src dst : PathName)
deriving DecidableEq, Repr

/-- Trace of `DataStorage._write_json`: `open(file_path, 'w')` followed by
`json.dump` — a single direct write to the target path. -/
def writeJsonTrace (path : PathName) (content : String) : List FsOp :=
  [FsOp.write path content]

/-- Trace of `AnalyticsAggregator._save_atomic`: dump to
`file_path.with_suffix('.tmp')`, then `temp_path.replace(file_path)`
(the non-error path; on an exception the temp file is removed and
nothing is renamed). -/
def saveAtomicTrace (path : PathName) (content : String) : List FsOp :=
  [FsOp.write { path with ext := ".tmp" } content,
   FsOp.rename { path with ext := ".tmp" } path]

/-- Trace of `DataStorage.save_symbol_data`: `_write_json` of the symbol
file, then `_update_metadata`, which reads and then `_write_json`s the
metadata file — two direct writes. -/
def saveSymbolDataTrace (rawPath metadataPath : PathName)
    (content metadataContent : String) : List FsOp :=
  writeJsonTrace rawPath content ++ writeJsonTrace metadataPath metadataContent

/-- Trace of `data_helpers.save_analytics`: `open(file_path, 'w')` and
`json.dump` — a direct write of the technical-analytics file. -/
def saveAnalyticsTrace (path : PathName) (content : String) : List FsOp :=
  writeJsonTrace path content

/-- Whether a filesystem operation opens the path `t` for writing. -/
def FsOp.writesTo (t : PathName) : FsOp → Bool
  | .write p _ => p = t
  | .rename _ _ => false

/-- Whether a filesystem operation renames some path onto `t`. -/
def FsOp.renamesTo (t : PathName) : FsOp → Bool
  | .write _ _ => false
  | .rename _ dst => dst = t

/-- A trace writes the target `t` atomically when it never opens `t` for
writing directly (so a reader of `t` can never observe a partial write)
and it installs `t` by renaming some other path over it. -/
def atomicFor (t : PathName) (tr : List FsOp) : Prop :=
  (∀ op ∈ tr, op.writesTo t = false) ∧ (∃ op ∈ tr, op.renamesTo t = true)

instance (t : PathName) (tr : List FsOp) : Decidable (atomicFor t tr) :=
  inferInstanceAs (Decidable (_ ∧ _))

/-! ## CLI entry scripts (`run_fetch.py`, `run_analytics.py`, `run_fred.py`,
`run_export.py`)

Each script is modelled by the outcome of the work inside its `try`
block, the value its `main()` returns, and the process exit code of the
`if __name__ == "__main__"` harness.  `sys.exit(main())` exits with
`main()`'s return value (`None` exits 0); calling `main()` bare always
exits 0 when no exception escapes. -/

/-- Outcome of the body of an entry script's `try` block. -/
inductive RunOutcome where
  | ok
  | valueError (msg : String)
  | unexpectedError (msg : String)
deriving DecidableEq, Repr

/-- Exit code of a Python process whose top level ran to completion:
`sys.exit(main())` uses the return value, `None` meaning 0. -/
def sysExitCode (mainReturn : Option Nat) : Nat := mainReturn.getD 0

/-- `run_fetch.main`: returns 0 after a successful batch, 1 for a
configuration `ValueError`, and 1 (after printing a traceback) for any
other exception. -/
def runFetchMain : RunOutcome → Option Nat
  | .ok => some 0
  | .valueError _ => some 1
  | .unexpectedError _ => some 1

/-- `run_fetch.py` process exit code: `sys.exit(main())`. -/
def runFetchExitCode (o : RunOutcome) : Nat := sysExitCode (runFetchMain o)

/-- `run_analytics.main`: catches `KeyboardInterrupt` and `Exception`
(printing a traceback for the latter) and falls off the end in every
case, returning `None`. -/
def runAnalyticsMain : RunOutcome → Option Nat
  | _ => none

/-- `run_analytics.py` process exit code: the script calls `main()` bare
(no `sys.exit`), so the process exits 0 whenever `main` returns. -/
def runAnalyticsExitCode (o : RunOutcome) : Nat :=
  match runAnalyticsMain o with
  | _ => 0

/-- `run_fred.main`: returns early (None) when the API key is missing,
catches any exception from the fetch, and returns `None` in every case. -/
def runFredMain : RunOutcome → Option Nat
  | _ => none

/-- `run_fred.py` process exit code: bare `main()` call, exits 0. -/
def runFredExitCode (o : RunOutcome) : Nat :=
  match runFredMain o with
  | _ => 0

/-- `run_export.main`: catches any exception, prints a traceback, and
returns `None` in every case. -/
def runExportMain : RunOutcome → Option Nat
  | _ => none

/-- `run_export.py` process exit code: bare `main()` call, exits 0. -/
def runExportExitCode (o : RunOutcome) : Nat :=
  match runExportMain o with
  | _ => 0

/-! ## Performance rankings (`src/analytics/aggregator.py`,
`create_performance_rankings`)

One record of `latest_values.json`'s `symbols` array, restricted to the
fields the ranking code reads.  In the source the metric fields live in
nested sub-dicts (`performance`, `momentum`, `volatility`); they are
flattened here.  A missing metric is `none`. -/
structure SymbolRecord where
  symbol : String
  roc_1d : Option ℚ
  roc_5d : Option ℚ
  roc_20d : Option ℚ
  rsi_14 : Option ℚ
  volatility_20d : Option ℚ
deriving DecidableEq, Repr

/-- Python's `v or d` on an optional float: `None` and `0.0` are both
falsy, so either one yields the default `d`. -/
def pyOrQ (v : Option ℚ) (d : ℚ) : ℚ :=
  match v with
  | none => d
  | some x => if x = 0 then d else x

/-- Sort key `x['performance']['roc_1d'] or -999`. -/
def roc1dKey (s : SymbolRecord) : ℚ := pyOrQ s.roc_1d (-999)

/-- Sort key `x['performance']['roc_5d'] or -999`. -/
def roc5dKey (s : SymbolRecord) : ℚ := pyOrQ s.roc_5d (-999)

/-- Sort key `x['performance']['roc_20d'] or -999`. -/
def roc20dKey (s : SymbolRecord) : ℚ := pyOrQ s.roc_20d (-999)

/-- Sort key `x['momentum']['rsi_14'] or 0`. -/
def rsiKey (s : SymbolRecord) : ℚ := pyOrQ s.rsi_14 0

/-- Sort key `x['volatility']['volatility_20d'] or 0`. -/
def volatilityKey (s : SymbolRecord) : ℚ := pyOrQ s.volatility_20d 0

/-- The comparator realised by `sorted(symbols, key=key, reverse=True)`:
stable descending order in the key. -/
def keyDesc (key : SymbolRecord → ℚ) (a b : SymbolRecord) : Prop := key b ≤ key a

instance (key : SymbolRecord → ℚ) : DecidableRel (keyDesc key) :=
  fun a b => inferInstanceAs (Decidable (key b ≤ key a))

instance (key : SymbolRecord → ℚ) : IsTotal SymbolRecord (keyDesc key) :=
  ⟨fun a b => le_total (key b) (key a)⟩

instance (key : SymbolRecord → ℚ) : IsTrans SymbolRecord (keyDesc key) :=
  ⟨fun _ _ _ hab hbc => le_trans hbc hab⟩

/-- `sorted(symbols, key=..., reverse=True)` as a stable descending sort. -/
def sortByKeyDesc (key : SymbolRecord → ℚ) (symbols : List SymbolRecord) :
    List SymbolRecord :=
  List.insertionSort (keyDesc key) symbols

/-- Python's `l[-5:]` slice: the last five elements (all of them when the
list is shorter). -/
def lastFive {α : Type} (l : List α) : List α := l.drop (l.length - 5)

/-- The `performance_rankings.json` content (minus the timestamp). -/
structure PerformanceRankings where
  top_gainers_1d : List (String × Option ℚ)
  top_losers_1d : List (String × Option ℚ)
  top_gainers_5d : List (String × Option ℚ)
  top_gainers_20d : List (String × Option ℚ)
  most_overbought : List (String × Option ℚ)
  most_oversold : List (String × Option ℚ)
  highest_volatility : List (String × Option ℚ)
deriving DecidableEq, Repr

/-- `AnalyticsAggregator.create_performance_rankings`: sort the
latest-values records by each falsy-coalesced metric key descending,
then slice the first five (`[:5]`) or the reversed last five
(`[-5:][::-1]`). -/
def createPerformanceRankings (symbols : List SymbolRecord) : PerformanceRankings :=
  let by_roc_1d := sortByKeyDesc roc1dKey symbols
  let by_roc_5d := sortByKeyDesc roc5dKey symbols
  let by_roc_20d := sortByKeyDesc roc20dKey symbols
  let by_rsi := sortByKeyDesc rsiKey symbols
  let by_volatility := sortByKeyDesc volatilityKey symbols
  { top_gainers_1d := (by_roc_1d.take 5).map (fun s => (s.symbol, s.roc_1d)),
    top_losers_1d := (lastFive by_roc_1d).reverse.map (fun s => (s.symbol, s.roc_1d)),
    top_gainers_5d := (by_roc_5d.take 5).map (fun s => (s.symbol, s.roc_5d)),
    top_gainers_20d := (by_roc_20d.take 5).map (fun s => (s.symbol, s.roc_20d)),
    most_overbought := (by_rsi.take 5).map (fun s => (s.symbol, s.rsi_14)),
    most_oversold := (lastFive by_rsi).reverse.map (fun s => (s.symbol, s.rsi_14)),
    highest_volatility := (by_volatility.take 5).map (fun s => (s.symbol, s.volatility_20d)) }

/-- The ranking key as the specification words it: the metric value
itself, with a missing value treated as −999 and nothing else coalesced.
Used only to compare the code's behaviour with the spec's sentence. -/
def specRoc1dKey (s : SymbolRecord) : ℚ :=
  match s.roc_1d with
  | none => -999
  | some x => x

/-- The spec's reading of `top_gainers_1d`: the 5 symbols with the
highest `roc_1d` (missing treated as −999), descending, ties stable.
Used only to compare the code's behaviour with the spec's sentence. -/
def specTopGainers1d (symbols : List SymbolRecord) : List (String × Option ℚ) :=
  ((sortByKeyDesc specRoc1dKey symbols).take 5).map (fun s => (s.symbol, s.roc_1d))

/-! ## Crossover signals (`src/analytics/technical_indicators.py`,
`calculate_custom_signals`)

An indicator-table row restricted to the two moving-average columns the
golden/death-cross block reads; a cell that is pandas `NaN` (the leading
rows of an SMA column) is `none`. -/
structure IndRow where
  sma_50 : Option ℚ
  sma_200 : Option ℚ
deriving DecidableEq, Repr

/-- Pandas elementwise `>` on float columns: any comparison involving
`NaN` is `False`. -/
def optGtQ : Option ℚ → Option ℚ → Bool
  | some a, some b => decide (b < a)
  | _, _ => false

/-- Pandas elementwise `<`; `NaN` compares `False`. -/
def optLtQ : Option ℚ → Option ℚ → Bool
  | some a, some b => decide (a < b)
  | _, _ => false

/-- Pandas elementwise `<=`; `NaN` compares `False`. -/
def optLeQ : Option ℚ → Option ℚ → Bool
  | some a, some b => decide (a ≤ b)
  | _, _ => false

/-- Pandas elementwise `>=`; `NaN` compares `False`. -/
def optGeQ : Option ℚ → Option ℚ → Bool
  | some a, some b => decide (b ≤ a)
  | _, _ => false

/-- The shared shape of the two crossover columns:
`cur(sma_50, sma_200) & prev(sma_50.shift(1), sma_200.shift(1))`,
computed row by row carrying the previous row's values (the first row
sees the shifted-in `NaN`s). -/
def crossColumn (cur prev : Option ℚ → Option ℚ → Bool) :
    Option ℚ → Option ℚ → List IndRow → List Bool
  | _, _, [] => []
  | p50, p200, r :: rest =>
      (cur r.sma_50 r.sma_200 && prev p50 p200) ::
        crossColumn cur prev r.sma_50 r.sma_200 rest

/-- The `golden_cross` column:
`(sma_50 > sma_200) & (sma_50.shift(1) <= sma_200.shift(1))`. -/
def goldenCrossColumn (tbl : List IndRow) : List Bool :=
  crossColumn optGtQ optLeQ none none tbl

/-- The `death_cross` column:
`(sma_50 < sma_200) & (sma_50.shift(1) >= sma_200.shift(1))`. -/
def deathCrossColumn (tbl : List IndRow) : List Bool :=
  crossColumn optLtQ optGeQ none none tbl

/-! ## Fetch scheduler (`src/fetcher.py`) -/

/-- One row of `config/tickers.csv` as loaded by `ConfigLoader`. -/
structure TickerConfig where
  symbol : String
  type : String
  category : String
  api_source : String
deriving DecidableEq, Repr

/-- `datetime.min`, the timestamp assigned to never-fetched symbols and
to metadata entries without a `last_updated` value; every parsed
timestamp is at least this. -/
def datetimeMin : Nat := 0

/-- Python's `str.lower()` (the statuses involved are ASCII). -/
def pyLower (s : String) : String := String.mk (s.data.map Char.toLower)

/-- Python's substring test `needle in hay` on the character lists. -/
def subListContains (needle : List Char) : List Char → Bool
  | [] => needle.isEmpty
  | c :: rest => needle.isPrefixOf (c :: rest) || subListContains needle rest

/-- Python's `needle in hay` for strings. -/
def pyInStr (needle hay : String) : Bool := subListContains needle.data hay.data

/-- `MarketDataFetcher._get_symbol_priority`: level 0 with `datetime.min`
when the symbol has no metadata entry, level 1 when the lowercased
`last_fetch_status` contains `failed`, level 2 otherwise; the second
component is the parsed `last_updated` (or `datetime.min` when absent). -/
def getSymbolPriority (metadata : String → Option MetaEntry) (t : TickerConfig) :
    Nat × Nat :=
  match metadata t.symbol with
  | none => (0, datetimeMin)
  | some m =>
    let lastUpdated := m.last_updated.getD datetimeMin
    let lastStatus := m.last_fetch_status.getD ""
    if pyInStr "failed" (pyLower lastStatus) then (1, lastUpdated)
    else (2, lastUpdated)

/-- Lexicographic order on `(priority_level, last_updated)` pairs, the
order realised by `ticker_priorities.sort(key=lambda x: (x[1], x[2]))`. -/
def priorityLE (p q : Nat × Nat) : Prop := p.1 < q.1 ∨ (p.1 = q.1 ∧ p.2 ≤ q.2)

instance : DecidableRel priorityLE := fun _ _ => inferInstanceAs (Decidable (_ ∨ _))

instance : IsTotal (Nat × Nat) priorityLE :=
  ⟨fun p q => by
    rcases lt_trichotomy p.1 q.1 with h | h | h
    · exact Or.inl (Or.inl h)
    · rcases le_total p.2 q.2 with h2 | h2
      · exact Or.inl (Or.inr ⟨h, h2⟩)
      · exact Or.inr (Or.inr ⟨h.symm, h2⟩)
    · exact Or.inr (Or.inl h)⟩

instance : IsTrans (Nat × Nat) priorityLE :=
  ⟨fun p q u hpq hqu => by
    rcases hpq with h | ⟨h, h2⟩
    · rcases hqu with h' | ⟨h', _⟩
      · exact Or.inl (h.trans h')
      · exact Or.inl (h' ▸ h)
    · rcases hqu with h' | ⟨h', h2'⟩
      · exact Or.inl (h ▸ h')
      · exact Or.inr ⟨h.trans h', h2.trans h2'⟩⟩

/-- The per-ticker comparator of `_get_prioritized_tickers`. -/
def tickerLE (metadata : String → Option MetaEntry) (a b : TickerConfig) : Prop :=
  priorityLE (getSymbolPriority metadata a) (getSymbolPriority metadata b)

instance (metadata : String → Option MetaEntry) : DecidableRel (tickerLE metadata) :=
  fun _ _ => inferInstanceAs (Decidable (priorityLE _ _))

instance (metadata : String → Option MetaEntry) : IsTotal TickerConfig (tickerLE metadata) :=
  ⟨fun _ _ => total_of priorityLE _ _⟩

instance (metadata : String → Option MetaEntry) : IsTrans TickerConfig (tickerLE metadata) :=
  ⟨fun _ _ _ hab hbc => trans_of priorityLE hab hbc⟩

/-- `MarketDataFetcher._get_prioritized_tickers`: a stable sort of the
enabled tickers by `(priority_level, last_updated)` ascending. -/
def getPrioritizedTickers (metadata : String → Option MetaEntry)
    (tickers : List TickerConfig) : List TickerConfig :=
  List.insertionSort (tickerLE metadata) tickers

/-- The ordering as the claim words it: never-fetched symbols first in
input order, then failed symbols in input order, then the rest stably
sorted by ascending `last_updated`.  Used only to compare the code's
behaviour with the claim's sentence. -/
def specClaimOrder (metadata : String → Option MetaEntry)
    (tickers : List TickerConfig) : List TickerConfig :=
  let level := fun t => (getSymbolPriority metadata t).1
  let stamp := fun t => (getSymbolPriority metadata t).2
  tickers.filter (fun t => level t == 0) ++
    tickers.filter (fun t => level t == 1) ++
      List.insertionSort (fun a b => stamp a ≤ stamp b)
        (tickers.filter (fun t => level t == 2))

/-- Result of the data-source call for one ticker, the behaviour of
`AlphaVantageAPI.fetch_data` / `YahooFinanceAPI.fetch_data` abstracted as
an oracle: parsed bars, a raised `RateLimitError`, or any other raised
exception. -/
inductive FetchOutcome where
  | success (data : List Bar)
  | rateLimited (msg : String)
  | failure (msg : String)
deriving DecidableEq, Repr

/-- The ambient state of a fetch run: the data-source oracle, whether an
Alpha Vantage API key is configured, and the run timestamp. -/
structure FetchEnv where
  outcome : TickerConfig → FetchOutcome
  hasAlphaVantageKey : Bool
  now : Nat

/-- The routing at the top of `fetch_symbol`: Yahoo tickers go to the
oracle; Alpha Vantage tickers go to the oracle if a key is configured
and otherwise raise (caught below as a generic failure); any other
`api_source` prints a warning and returns `False` without an attempt
(`none` here). -/
def effectiveOutcome (env : FetchEnv) (t : TickerConfig) : Option FetchOutcome :=
  if t.api_source = "yahoo_finance" then some (env.outcome t)
  else if t.api_source = "alpha_vantage" then
    if env.hasAlphaVantageKey then some (env.outcome t)
    else some (.failure "Alpha Vantage API key not configured")
  else none

/-- What `fetch_symbol` does for one ticker: `True`, `False`, or a
re-raised `RateLimitError`. -/
inductive FetchSymbolResult where
  | ok
  | notOk
  | rateLimitRaised (msg : String)
deriving DecidableEq, Repr

/-- `MarketDataFetcher.fetch_symbol`: on data, save it (which also
records a success metadata entry); on a rate limit, mark the symbol
`failed: rate_limit` and re-raise; on any other error, mark the symbol
failed with the error string and return `False`. -/
def fetchSymbol (env : FetchEnv) (st : Storage) (t : TickerConfig) :
    FetchSymbolResult × Storage :=
  match effectiveOutcome env t with
  | none => (.notOk, st)
  | some (.success data) =>
      (.ok, saveSymbolData st env.now t.symbol t.type t.category t.api_source data)
  | some (.rateLimited msg) =>
      (.rateLimitRaised msg, markSymbolFailed st env.now t.symbol "rate_limit")
  | some (.failure msg) =>
      (.notOk, markSymbolFailed st env.now t.symbol msg)

/-- Accumulated state of the `for ticker in batch` loop of `fetch_batch`:
success and failure counts, whether a rate limit stopped the loop, the
final storage, and the tickers actually attempted. -/
structure LoopResult where
  successful : Nat
  failed : Nat
  rateLimited : Bool
  store : Storage
  attempted : List TickerConfig

/-- The `for ticker in batch` loop of `fetch_batch`: each `True` result
counts as successful, each `False` as failed, and a raised
`RateLimitError` sets the flag and breaks out of the loop. -/
def fetchLoop (env : FetchEnv) : List TickerConfig → Storage → LoopResult
  | [], st => ⟨0, 0, false, st, []⟩
  | t :: rest, st =>
    match fetchSymbol env st t with
    | (.ok, st') =>
        let r := fetchLoop env rest st'
        ⟨r.successful + 1, r.failed, r.rateLimited, r.store, t :: r.attempted⟩
    | (.notOk, st') =>
        let r := fetchLoop env rest st'
        ⟨r.successful, r.failed + 1, r.rateLimited, r.store, t :: r.attempted⟩
    | (.rateLimitRaised _, st') => ⟨0, 0, true, st', [t]⟩

/-- The printed fetch summary: successful, failed,
`len(tickers) - (successful + failed)` remaining in the queue, and
whether the run stopped early on a rate limit. -/
structure BatchSummary where
  successful : Nat
  failed : Nat
  remaining : Nat
  rateLimited : Bool
deriving DecidableEq, Repr

/-- `MarketDataFetcher.fetch_batch`: prioritize the enabled tickers,
take the first `max_symbols`, run the fetch loop, and report the
summary. -/
def fetchBatch (env : FetchEnv) (st : Storage) (tickers : List TickerConfig)
    (maxSymbols : Nat) : BatchSummary × LoopResult :=
  let prioritized := getPrioritizedTickers st.metadata tickers
  let batch := prioritized.take maxSymbols
  let r := fetchLoop env batch st
  (⟨r.successful, r.failed, tickers.length - (r.successful + r.failed), r.rateLimited⟩, r)

/-! ## Analytics driver (`src/analytics/calculator.py`) -/

/-- The inputs `AnalyticsCalculator.calculate_for_symbol` reads: the raw
series a symbol's file parses to (`load_symbol_raw_data`), or `none`
when the file does not exist or has no data. -/
structure CalcEnv where
  rawData : String → Option (List Bar)

/-- The path `save_analytics` writes a symbol's technical table to. -/
def techAnalyticsPath (symbol : String) : String :=
  "data/analytics/technical/" ++ sanitizeSymbol symbol ++ ".json"

/-- `AnalyticsCalculator.calculate_for_symbol`, restricted to the
technical pipeline: returns whether the calculation succeeded together
with the list of technical-analytics paths written.  A missing frame, an
empty frame, or fewer than 50 bars returns `False` before anything is
written; otherwise the indicator table is computed and saved.  (The
optional fundamentals fetch touches a different subsystem and is not a
technical-analytics write.) -/
def calculateForSymbol (env : CalcEnv) (symbol : String) : Bool × List String :=
  match env.rawData symbol with
  | none => (false, [])
  | some df =>
    if df.isEmpty then (false, [])
    else if df.length < 50 then (false, [])
    else (true, [techAnalyticsPath symbol])

/-- `AnalyticsCalculator.calculate_all`: run every symbol in order,
counting successes and failures. -/
def calculateAll (env : CalcEnv) : List String → Nat × Nat
  | [] => (0, 0)
  | s :: rest =>
    let r := calculateAll env rest
    if (calculateForSymbol env s).1 then (r.1 + 1, r.2) else (r.1, r.2 + 1)

/-- Whether a routed fetch outcome is a raised `RateLimitError`. -/
def isRateLimitO : Option FetchOutcome → Bool
  | some (.rateLimited _) => true
  | _ => false

/-- Whether a routed fetch outcome is parsed data (a `True` return of
`fetch_symbol`). -/
def isSuccessO : Option FetchOutcome → Bool
  | some (.success _) => true
  | _ => false

/-- The batch `fetch_batch` iterates over: the first `max_symbols`
prioritized tickers. -/
def batchOf (st : Storage) (tickers : List TickerConfig) (maxSymbols : Nat) :
    List TickerConfig :=
  (getPrioritizedTickers st.metadata tickers).take maxSymbols

/-! ## Concrete fixtures

Small concrete states used to instantiate the theorems below. -/

/-- A storage with no files and no metadata. -/
def stEmpty : Storage := ⟨fun _ => none, fun _ => none⟩

/-- A bar dated 2024-01-02. -/
def dupBarA : Bar := ⟨"2024-01-02", 1, 1, 1, 1, 0⟩

/-- A different bar carrying the same date 2024-01-02. -/
def dupBarB : Bar := ⟨"2024-01-02", 2, 2, 2, 2, 0⟩

/-- A bar dated 2024-01-03. -/
def freshBar : Bar := ⟨"2024-01-03", 3, 3, 3, 3, 7⟩

/-- A stored raw-data file for the symbol `BTC_USD`. -/
def btcUnderscoreFile : SymbolFile :=
  ⟨"BTC_USD", "crypto", "Crypto", "alpha_vantage", 1, [⟨"2024-01-01", 10, 10, 10, 10, 5⟩]⟩

/-- A storage holding only `data/raw/BTC_USD.json`. -/
def stBtc : Storage :=
  ⟨fun p => if p = "data/raw/BTC_USD.json" then some btcUnderscoreFile else none,
   fun _ => none⟩

/-- A stored raw-data file for SPY holding the 2024-01-02 bar. -/
def spyFile : SymbolFile := ⟨"SPY", "etf", "Index", "yahoo_finance", 1, [dupBarA]⟩

/-- A storage holding only `data/raw/SPY.json`. -/
def stSpy : Storage :=
  ⟨fun p => if p = "data/raw/SPY.json" then some spyFile else none, fun _ => none⟩

/-- The on-disk path of the raw file for SPY, split stem/extension. -/
def rawSpyPath : PathName := ⟨"data/raw/SPY", ".json"⟩

/-- The on-disk path of the fetch-metadata file, split stem/extension. -/
def metadataPath : PathName := ⟨"data/metadata/update_status", ".json"⟩

/-- An analytics environment with one 49-bar symbol and one 50-bar
symbol. -/
def calcEnvDemo : CalcEnv :=
  ⟨fun s =>
    if s = "TINY" then some (List.replicate 49 dupBarA)
    else if s = "GOOD" then some (List.replicate 50 dupBarA) else none⟩

/-- A latest-values record whose `roc_1d` is exactly zero. -/
def recZero : SymbolRecord := ⟨"A", some 0, none, none, none, none⟩

/-- Latest-values records with small negative `roc_1d` values. -/
def recB : SymbolRecord := ⟨"B", some (-1), none, none, none, none⟩

/-- See `recB`. -/
def recC : SymbolRecord := ⟨"C", some (-2), none, none, none, none⟩

/-- See `recB`. -/
def recD : SymbolRecord := ⟨"D", some (-3), none, none, none, none⟩

/-- See `recB`. -/
def recE : SymbolRecord := ⟨"E", some (-4), none, none, none, none⟩

/-- See `recB`. -/
def recF : SymbolRecord := ⟨"F", some (-5), none, none, none, none⟩

/-- Six latest-values records: one with `roc_1d = 0` (the highest), five
with negative `roc_1d`. -/
def zeroRocRecords : List SymbolRecord := [recZero, recB, recC, recD, recE, recF]

/-- A three-row indicator table in which SMA-50 crosses above SMA-200 on
the middle row and back below on the last row. -/
def crossTable : List IndRow :=
  [⟨some 1, some 2⟩, ⟨some 3, some 2⟩, ⟨some 1, some 2⟩]

/-- A ticker whose metadata says `failed` with the later timestamp. -/
def tickFailedLate : TickerConfig := ⟨"A", "stock", "Tech", "yahoo_finance"⟩

/-- A ticker whose metadata says `failed` with the earlier timestamp. -/
def tickFailedEarly : TickerConfig := ⟨"B", "stock", "Tech", "yahoo_finance"⟩

/-- A never-fetched ticker. -/
def tickNever : TickerConfig := ⟨"N", "stock", "Tech", "yahoo_finance"⟩

/-- Metadata marking `A` failed at time 10 and `B` failed at time 5. -/
def mdTwoFailed : String → Option MetaEntry := fun s =>
  if s = "A" then some ⟨some 10, some "failed: boom", 0⟩
  else if s = "B" then some ⟨some 5, some "failed: kaput", 0⟩
  else none

/-- Five enabled Yahoo-Finance tickers. -/
def fiveTickers : List TickerConfig :=
  [⟨"S1", "stock", "Tech", "yahoo_finance"⟩,
   ⟨"S2", "stock", "Tech", "yahoo_finance"⟩,
   ⟨"S3", "stock", "Tech", "yahoo_finance"⟩,
   ⟨"S4", "stock", "Tech", "yahoo_finance"⟩,
   ⟨"S5", "stock", "Tech", "yahoo_finance"⟩]

/-- A fetch run in which the data source rate-limits the symbol `S3` and
returns one bar for every other symbol. -/
def envRateLimit : FetchEnv :=
  ⟨fun t => if t.symbol = "S3" then .rateLimited "quota" else .success [freshBar],
   false, 9⟩

/-- Placeholder ticker used as the default of out-of-range list reads. -/
def tickerDefault : TickerConfig := ⟨"", "", "", ""⟩

/-! ## Theorems -/

/-- C3, counterexample: the claim says every persisted JSON file —
including the per-symbol raw files and the fetch-metadata file — is
written via a temporary path and an atomic rename.  But
`DataStorage.save_symbol_data` persists the raw file and the metadata
file through `_write_json`, which opens the target path directly, so its
trace writes `data/raw/SPY.json` in place and renames nothing. -/
theorem c3_counterexample :
    ¬ atomicFor rawSpyPath
        (saveSymbolDataTrace rawSpyPath metadataPath "rawContent" "metaContent") := by
  decide

/-- C3, amended: only the aggregate files are written atomically.
`AnalyticsAggregator._save_atomic` writes any `.json` target by dumping
to the `.tmp` sibling and renaming it over the target, never opening the
target directly; but `DataStorage._write_json` (raw per-symbol files and
the fetch-metadata file) and `data_helpers.save_analytics` (technical
files) open their target directly, so those writes are not atomic. -/
theorem write_discipline (stem c : String) (p : PathName) (c' rc mc : String)
    (meta : PathName) :
    atomicFor ⟨stem, ".json"⟩ (saveAtomicTrace ⟨stem, ".json"⟩ c) ∧
    ¬ atomicFor p (writeJsonTrace p c') ∧
    ¬ atomicFor p (saveAnalyticsTrace p c') ∧
    ¬ atomicFor p (saveSymbolDataTrace p meta rc mc) := by
  refine ⟨⟨?_, ?_⟩, ?_, ?_, ?_⟩
  · intro op hop
    simp only [saveAtomicTrace, List.mem_cons, List.mem_singleton] at hop
    rcases hop with h | h | h
    · subst h
      simp [FsOp.writesTo]
    · subst h
      simp [FsOp.writesTo]
    · cases h
  · exact ⟨FsOp.rename ⟨stem, ".tmp"⟩ ⟨stem, ".json"⟩, by simp [saveAtomicTrace],
      by simp [FsOp.renamesTo]⟩
  · intro h
    have := h.1 (FsOp.write p c') (by simp [writeJsonTrace])
    simp [FsOp.writesTo] at this
  · intro h
    have := h.1 (FsOp.write p c') (by simp [saveAnalyticsTrace, writeJsonTrace])
    simp [FsOp.writesTo] at this
  · intro h
    have := h.1 (FsOp.write p rc)
      (by simp [saveSymbolDataTrace, writeJsonTrace])
    simp [FsOp.writesTo] at this

/-- C4, counterexample: the claim says every CLI entry script turns an
unrecoverable error into a non-zero exit code, but `run_analytics.py`
catches the exception, prints the traceback, returns `None`, and is
invoked without `sys.exit`, so the process exits 0. -/
theorem c4_counterexample :
    runAnalyticsExitCode (RunOutcome.unexpectedError "boom") = 0 := rfl

/-- C4, amended: `run_fetch.py` exits 0 on success and 1 on a
configuration error or an unexpected exception (traceback printed), via
`sys.exit(main())`; `run_analytics.py`, `run_fred.py` and
`run_export.py` catch top-level exceptions but call `main()` bare, so
they exit 0 on success and on unrecoverable error alike. -/
theorem entry_script_exit_codes (msg : String) :
    runFetchExitCode RunOutcome.ok = 0 ∧
    runFetchExitCode (RunOutcome.valueError msg) = 1 ∧
    runFetchExitCode (RunOutcome.unexpectedError msg) = 1 ∧
    runAnalyticsExitCode RunOutcome.ok = 0 ∧
    runAnalyticsExitCode (RunOutcome.unexpectedError msg) = 0 ∧
    runFredExitCode (RunOutcome.unexpectedError msg) = 0 ∧
    runExportExitCode (RunOutcome.unexpectedError msg) = 0 :=
  ⟨rfl, rfl, rfl, rfl, rfl, rfl, rfl⟩

/-- The merged data is a permutation of the existing bars plus the new
bars whose date was not yet stored. -/
theorem mergeData_perm (existing newData : List Bar) :
    List.Perm (mergeData existing newData)
      (existing ++ newData.filter (fun d => !((existing.map (·.date)).contains d.date))) :=
  List.perm_insertionSort dateDesc _

/-- The merged data is sorted by date descending. -/
theorem mergeData_sorted (existing newData : List Bar) :
    (mergeData existing newData).Pairwise dateDesc :=
  List.sorted_insertionSort dateDesc _

/-- If the stored dates and the new dates are each duplicate-free, so
are the merged dates. -/
theorem mergeData_dates_nodup (existing newData : List Bar)
    (h1 : (existing.map (·.date)).Nodup) (h2 : (newData.map (·.date)).Nodup) :
    ((mergeData existing newData).map (·.date)).Nodup := by
  have hp := (mergeData_perm existing newData).map (·.date)
  rw [List.Perm.nodup_iff hp, List.map_append]
  refine List.Nodup.append h1 ?_ ?_
  · exact h2.sublist (List.Sublist.map _ (List.filter_sublist _))
  · intro d hd hd2
    rcases List.mem_map.mp hd2 with ⟨b, hb, hbd⟩
    rcases List.mem_filter.mp hb with ⟨-, hb2⟩
    simp at hb2
    rcases List.mem_map.mp hd with ⟨x, hx, hxd⟩
    exact hb2 x hx (hxd.trans hbd.symm)

/-- A date is merged iff it was stored or newly fetched. -/
theorem mergeData_mem_dates (existing newData : List Bar) (d : String) :
    d ∈ (mergeData existing newData).map (·.date) ↔
      d ∈ existing.map (·.date) ∨ d ∈ newData.map (·.date) := by
  rw [((mergeData_perm existing newData).map (·.date)).mem_iff, List.map_append,
    List.mem_append]
  constructor
  · rintro (h | h)
    · exact Or.inl h
    · rcases List.mem_map.mp h with ⟨b, hb, hbd⟩
      exact Or.inr (List.mem_map.mpr ⟨b, (List.mem_filter.mp hb).1, hbd⟩)
  · rintro (h | h)
    · exact Or.inl h
    · by_cases hex : d ∈ existing.map (·.date)
      · exact Or.inl hex
      · rcases List.mem_map.mp h with ⟨b, hb, hbd⟩
        refine Or.inr (List.mem_map.mpr ⟨b, List.mem_filter.mpr ⟨hb, ?_⟩, hbd⟩)
        simp [hbd, hex]

/-- C10: the merge of `save_symbol_data` never overwrites a stored bar:
every stored bar survives the merge; for a date already stored, the
merged bars at that date are exactly the stored bars at that date; a
newly fetched bar whose date is already stored appears in the merge only
if it coincides with a stored bar; a new bar with a fresh date is
appended; and the merged length is the stored length plus the number of
fresh-dated new bars. -/
theorem merge_never_overwrites (existing newData : List Bar) :
    (∀ b ∈ existing, b ∈ mergeData existing newData) ∧
    (∀ d, d ∈ existing.map (·.date) →
      List.Perm ((mergeData existing newData).filter (fun b => b.date == d))
        (existing.filter (fun b => b.date == d))) ∧
    (∀ b ∈ newData, b.date ∈ existing.map (·.date) →
      b ∈ mergeData existing newData → b ∈ existing) ∧
    (∀ b ∈ newData, b.date ∉ existing.map (·.date) → b ∈ mergeData existing newData) ∧
    (mergeData existing newData).length =
      existing.length +
        (newData.filter (fun d => !((existing.map (·.date)).contains d.date))).length := by
  have hperm := mergeData_perm existing newData
  refine ⟨?_, ?_, ?_, ?_, ?_⟩
  · intro b hb
    exact hperm.mem_iff.mpr (List.mem_append_left _ hb)
  · intro d hd
    have h1 := hperm.filter (fun b => b.date == d)
    rw [List.filter_append] at h1
    have h2 : (newData.filter (fun d' => !((existing.map (·.date)).contains d'.date))).filter
        (fun b => b.date == d) = [] := by
      rw [List.filter_eq_nil_iff]
      intro b hb hbd
      rcases List.mem_filter.mp hb with ⟨-, hb2⟩
      have hbdd : b.date = d := by simpa using hbd
      simp at hb2
      rcases List.mem_map.mp hd with ⟨x, hx, hxd⟩
      exact hb2 x hx (hxd.trans hbdd.symm)
    rw [h2, List.append_nil] at h1
    exact h1
  · intro b hb hdate hmem
    rcases List.mem_append.mp (hperm.mem_iff.mp hmem) with h | h
    · exact h
    · rcases List.mem_filter.mp h with ⟨-, h2⟩
      simp at h2
      rcases List.mem_map.mp hdate with ⟨x, hx, hxd⟩
      exact absurd hxd (h2 x hx)
  · intro b hb hnot
    refine hperm.mem_iff.mpr (List.mem_append_right _ (List.mem_filter.mpr ⟨hb, ?_⟩))
    simpa using hnot
  · rw [hperm.length_eq, List.length_append]

/-- C10, witness: a concrete merge where the stored 2024-01-02 bar wins
over a conflicting fetched bar and a fresh 2024-01-03 bar is appended. -/
theorem merge_never_overwrites_witness :
    dupBarA ∈ mergeData [dupBarA] [dupBarB, freshBar] ∧
    dupBarB ∉ mergeData [dupBarA] [dupBarB, freshBar] ∧
    freshBar ∈ mergeData [dupBarA] [dupBarB, freshBar] := by
  have h := merge_never_overwrites [dupBarA] [dupBarB, freshBar]
  refine ⟨h.1 dupBarA (by decide), ?_, h.2.2.2.1 freshBar (by decide) (by decide)⟩
  intro hmem
  have := h.2.2.1 dupBarB (by decide) (by decide) hmem
  simp at this
  exact absurd this (by decide)

/-- C8, counterexample: the claim quantifies over every list of newly
fetched bars, but when the new batch itself carries two bars with the
same date (here against an empty store), `save_symbol_data` keeps both,
so the stored file does not have one bar per distinct date. -/
theorem c8_counterexample :
    ¬ (((loadSymbolData
          (saveSymbolData stEmpty 0 "SPY" "etf" "Index" "yahoo_finance" [dupBarA, dupBarB])
          "SPY").map (fun f => f.data.map (·.date))).getD []).Nodup := by
  decide

/-- C8, amended: provided the stored file's dates are duplicate-free and
the newly fetched bars' dates are duplicate-free, saving and re-loading
a symbol yields a file whose dates are exactly the union of the stored
and fetched dates, one bar per distinct date, sorted descending. -/
theorem save_load_round_trip (st : Storage) (now : Nat) (symbol ty cat src : String)
    (data : List Bar)
    (hex : ∀ g, st.files (getSymbolFilePath symbol) = some g → (g.data.map (·.date)).Nodup)
    (hnew : (data.map (·.date)).Nodup) :
    ∃ f, loadSymbolData (saveSymbolData st now symbol ty cat src data) symbol = some f ∧
      f.symbol = symbol ∧
      (∀ d, d ∈ f.data.map (·.date) ↔
        ((∃ g, st.files (getSymbolFilePath symbol) = some g ∧ d ∈ g.data.map (·.date)) ∨
          d ∈ data.map (·.date))) ∧
      (f.data.map (·.date)).Nodup ∧
      f.data.Pairwise dateDesc := by
  cases hst : st.files (getSymbolFilePath symbol) with
  | none =>
    refine ⟨{ symbol := symbol, type := ty, category := cat, api_source := src,
              last_updated := now, data := List.insertionSort dateDesc data },
      ?_, rfl, ?_, ?_, ?_⟩
    · simp [loadSymbolData, saveSymbolData, hst]
    · intro d
      have hp := (List.perm_insertionSort dateDesc data).map (·.date)
      rw [hp.mem_iff]
      constructor
      · exact fun h => Or.inr h
      · rintro (⟨g, hg, -⟩ | h)
        · cases hg
        · exact h
    · have hp := (List.perm_insertionSort dateDesc data).map (·.date)
      exact hp.nodup_iff.mpr hnew
    · exact List.sorted_insertionSort dateDesc data
  | some g =>
    refine ⟨{ symbol := symbol, type := ty, category := cat, api_source := src,
              last_updated := now, data := mergeData g.data data },
      ?_, rfl, ?_, ?_, ?_⟩
    · simp [loadSymbolData, saveSymbolData, hst]
    · intro d
      rw [mergeData_mem_dates]
      constructor
      · rintro (h | h)
        · exact Or.inl ⟨g, rfl, h⟩
        · exact Or.inr h
      · rintro (⟨g', hg', hd⟩ | h)
        · cases hg'
          exact Or.inl hd
        · exact Or.inr h
    · exact mergeData_dates_nodup g.data data (hex g hst) hnew
    · exact mergeData_sorted g.data data

/-- C8, witness: merging a fresh 2024-01-03 bar and a duplicate
2024-01-02 bar into a store holding a 2024-01-02 bar yields the two
distinct dates, each once, sorted descending. -/
theorem save_load_round_trip_witness :
    (∀ g, (stSpy.files (getSymbolFilePath "SPY") = some g) →
      (g.data.map (·.date)).Nodup) ∧
    (([dupBarB, freshBar].map (·.date) : List String).Nodup) ∧
    (∃ f, loadSymbolData (saveSymbolData stSpy 9 "SPY" "etf" "Index" "yahoo_finance"
            [dupBarB, freshBar]) "SPY" = some f ∧
      f.symbol = "SPY" ∧
      (∀ d, d ∈ f.data.map (·.date) ↔
        ((∃ g, stSpy.files (getSymbolFilePath "SPY") = some g ∧ d ∈ g.data.map (·.date)) ∨
          d ∈ ([dupBarB, freshBar].map (·.date) : List String))) ∧
      (f.data.map (·.date)).Nodup ∧
      f.data.Pairwise dateDesc) := by
  have hex : ∀ g, stSpy.files (getSymbolFilePath "SPY") = some g →
      (g.data.map (·.date)).Nodup := by
    intro g hg
    have hval : stSpy.files (getSymbolFilePath "SPY") = some spyFile := by decide
    rw [hval] at hg
    cases hg
    decide
  exact ⟨hex, by decide, save_load_round_trip stSpy 9 "SPY" "etf" "Index" "yahoo_finance"
    [dupBarB, freshBar] hex (by decide)⟩

/-- C9: the filename sanitization is not injective — `BTC-USD` and
`BTC_USD` (and `^VIX` and `VIX`) map to the same path — so saving data
under one symbol of such a pair lands in the other symbol's file: the
merged bars are read back under either symbol and the identity fields
(symbol, type, category, api_source) are overwritten by the saving
symbol's values. -/
theorem sanitize_not_injective (st : Storage) (now : Nat) (ty cat src : String)
    (newData : List Bar) :
    sanitizeSymbol "BTC-USD" = "BTC_USD" ∧ sanitizeSymbol "BTC_USD" = "BTC_USD" ∧
    sanitizeSymbol "^VIX" = "VIX" ∧ sanitizeSymbol "VIX" = "VIX" ∧
    ("BTC-USD" : String) ≠ "BTC_USD" ∧ ("^VIX" : String) ≠ "VIX" ∧
    getSymbolFilePath "BTC-USD" = getSymbolFilePath "BTC_USD" ∧
    getSymbolFilePath "^VIX" = getSymbolFilePath "VIX" ∧
    loadSymbolData (saveSymbolData st now "BTC-USD" ty cat src newData) "BTC_USD" =
      some { symbol := "BTC-USD", type := ty, category := cat, api_source := src,
             last_updated := now,
             data := match st.files (getSymbolFilePath "BTC_USD") with
                     | some f => mergeData f.data newData
                     | none => List.insertionSort dateDesc newData } := by
  have hpaths : getSymbolFilePath "BTC-USD" = getSymbolFilePath "BTC_USD" := by decide
  refine ⟨by decide, by decide, by decide, by decide, by decide, by decide, hpaths,
    by decide, ?_⟩
  simp [loadSymbolData, saveSymbolData, hpaths]

/-- Inserting a symbol whose calculation fails anywhere in the batch
adds exactly one failure and leaves the rest of the batch processed
unchanged. -/
theorem calculateAll_insert_failed (env : CalcEnv) (s : String)
    (hs : (calculateForSymbol env s).1 = false) (pre post : List String) :
    calculateAll env (pre ++ s :: post) =
      ((calculateAll env (pre ++ post)).1, (calculateAll env (pre ++ post)).2 + 1) := by
  induction pre with
  | nil => simp [calculateAll, hs]
  | cons p pre ih =>
    cases h : (calculateForSymbol env p).1 <;> simp [calculateAll, h, ih]

/-- Every symbol of a batch is counted exactly once, as a success or as
a failure. -/
theorem calculateAll_counts_all (env : CalcEnv) (symbols : List String) :
    (calculateAll env symbols).1 + (calculateAll env symbols).2 = symbols.length := by
  induction symbols with
  | nil => rfl
  | cons s rest ih =>
    simp only [calculateAll]
    cases (calculateForSymbol env s).1 <;> simp <;> omega

/-- C7: a symbol whose raw series has fewer than 50 bars fails without
writing any technical-analytics output, the batch counts it as exactly
one failure while the rest of the batch is processed unchanged, and
every symbol of the batch is accounted for (the run continues to the
end). -/
theorem insufficient_data_skipped (env : CalcEnv) (symbol : String) (df : List Bar)
    (hdf : env.rawData symbol = some df) (hlen : df.length < 50) :
    calculateForSymbol env symbol = (false, []) ∧
    (∀ pre post : List String,
      calculateAll env (pre ++ symbol :: post) =
        ((calculateAll env (pre ++ post)).1, (calculateAll env (pre ++ post)).2 + 1)) ∧
    (∀ symbols : List String,
      (calculateAll env symbols).1 + (calculateAll env symbols).2 = symbols.length) := by
  have h1 : calculateForSymbol env symbol = (false, []) := by
    unfold calculateForSymbol
    rw [hdf]
    by_cases he : df.isEmpty <;> simp [he, hlen]
  exact ⟨h1, fun pre post => calculateAll_insert_failed env symbol (by rw [h1]) pre post,
    calculateAll_counts_all env⟩

/-- C7, witness: the 49-bar symbol `TINY` fails and adds one failure to
a batch around it. -/
theorem insufficient_data_skipped_witness :
    calcEnvDemo.rawData "TINY" = some (List.replicate 49 dupBarA) ∧
    (List.replicate 49 dupBarA : List Bar).length < 50 ∧
    (calculateForSymbol calcEnvDemo "TINY" = (false, []) ∧
     (∀ pre post : List String,
       calculateAll calcEnvDemo (pre ++ "TINY" :: post) =
         ((calculateAll calcEnvDemo (pre ++ post)).1,
          (calculateAll calcEnvDemo (pre ++ post)).2 + 1)) ∧
     (∀ symbols : List String,
       (calculateAll calcEnvDemo symbols).1 + (calculateAll calcEnvDemo symbols).2 =
         symbols.length)) :=
  ⟨rfl, by decide,
    insufficient_data_skipped calcEnvDemo "TINY" (List.replicate 49 dupBarA) rfl (by decide)⟩

/-- A true pandas `>` between two cells forces the corresponding `<=`
to be false (also vacuously across `NaN`s). -/
theorem optGtQ_imp_optLeQ (a b : Option ℚ) (h : optGtQ a b = true) :
    optLeQ a b = false := by
  match a, b with
  | none, _ => rfl
  | some x, none => rfl
  | some x, some y =>
    simp [optGtQ] at h
    simp [optLeQ]
    exact h

/-- A true pandas `<` between two cells forces the corresponding `>=`
to be false. -/
theorem optLtQ_imp_optGeQ (a b : Option ℚ) (h : optLtQ a b = true) :
    optGeQ a b = false := by
  match a, b with
  | none, _ => rfl
  | some x, none => rfl
  | some x, some y =>
    simp [optLtQ] at h
    simp [optGeQ]
    exact h

/-- Reading a crossover column at a positive row index: the current
row's cells combined with the previous row's cells. -/
theorem crossColumn_getD (cur prev : Option ℚ → Option ℚ → Bool) :
    ∀ (tbl : List IndRow) (p50 p200 : Option ℚ) (i : Nat), i + 1 < tbl.length →
      (crossColumn cur prev p50 p200 tbl).getD (i + 1) false =
        (cur (tbl.getD (i + 1) ⟨none, none⟩).sma_50
             (tbl.getD (i + 1) ⟨none, none⟩).sma_200 &&
         prev (tbl.getD i ⟨none, none⟩).sma_50
              (tbl.getD i ⟨none, none⟩).sma_200)
  | [], _, _, i, h => by simp at h
  | r :: tbl, p50, p200, 0, h => by
      cases tbl with
      | nil => simp at h
      | cons r2 rest => simp [crossColumn]
  | r :: tbl, p50, p200, (i+1), h => by
      have h' : i + 1 < tbl.length := by
        simpa using h
      simp only [crossColumn, List.getD_cons_succ]
      exact crossColumn_getD cur prev tbl r.sma_50 r.sma_200 i h'

/-- A crossover column whose current test refutes its previous-row test
is never true on two consecutive rows. -/
theorem crossColumn_not_consec (cur prev : Option ℚ → Option ℚ → Bool)
    (hcp : ∀ a b, cur a b = true → prev a b = false) :
    ∀ (tbl : List IndRow) (p50 p200 : Option ℚ) (j : Nat),
      ¬ ((crossColumn cur prev p50 p200 tbl).getD j false = true ∧
         (crossColumn cur prev p50 p200 tbl).getD (j + 1) false = true)
  | [], _, _, j => by simp [crossColumn]
  | r :: tbl, p50, p200, 0 => by
      rintro ⟨h0, h1⟩
      simp [crossColumn] at h0
      cases tbl with
      | nil => simp [crossColumn] at h1
      | cons r2 rest =>
        simp [crossColumn] at h1
        have := hcp _ _ h0.1
        rw [this] at h1
        exact absurd h1.2 (by simp)
  | r :: tbl, p50, p200, (j+1) => by
      rintro ⟨h0, h1⟩
      simp only [crossColumn, List.getD_cons_succ] at h0 h1
      exact crossColumn_not_consec cur prev hcp tbl r.sma_50 r.sma_200 j ⟨h0, h1⟩

/-- C2: on every indicator table, at a row where SMA-50 and SMA-200 are
defined on that row and the previous one, `golden_cross` is true exactly
when SMA-50 is above SMA-200 now and was not above on the previous row
(and `death_cross` symmetrically); moreover neither column is ever true
on two consecutive rows. -/
theorem golden_death_cross_edge (tbl : List IndRow) (i : Nat) (h : i + 1 < tbl.length)
    (v50 v200 w50 w200 : ℚ)
    (hc50 : (tbl.getD (i + 1) ⟨none, none⟩).sma_50 = some v50)
    (hc200 : (tbl.getD (i + 1) ⟨none, none⟩).sma_200 = some v200)
    (hp50 : (tbl.getD i ⟨none, none⟩).sma_50 = some w50)
    (hp200 : (tbl.getD i ⟨none, none⟩).sma_200 = some w200) :
    ((goldenCrossColumn tbl).getD (i + 1) false = true ↔ (v200 < v50 ∧ w50 ≤ w200)) ∧
    ((deathCrossColumn tbl).getD (i + 1) false = true ↔ (v50 < v200 ∧ w200 ≤ w50)) ∧
    (∀ j, ¬ ((goldenCrossColumn tbl).getD j false = true ∧
      (goldenCrossColumn tbl).getD (j + 1) false = true)) ∧
    (∀ j, ¬ ((deathCrossColumn tbl).getD j false = true ∧
      (deathCrossColumn tbl).getD (j + 1) false = true)) := by
  refine ⟨?_, ?_, ?_, ?_⟩
  · rw [goldenCrossColumn, crossColumn_getD optGtQ optLeQ tbl none none i h,
      hc50, hc200, hp50, hp200]
    simp [optGtQ, optLeQ]
  · rw [deathCrossColumn, crossColumn_getD optLtQ optGeQ tbl none none i h,
      hc50, hc200, hp50, hp200]
    simp [optLtQ, optGeQ]
  · exact fun j => crossColumn_not_consec optGtQ optLeQ optGtQ_imp_optLeQ tbl none none j
  · exact fun j => crossColumn_not_consec optLtQ optGeQ optLtQ_imp_optGeQ tbl none none j

/-- C2, witness: on the concrete three-row table, the middle row is a
golden cross (50 was below 200, is now above) and no column fires twice
in a row. -/
theorem golden_death_cross_edge_witness :
    (0 + 1 < crossTable.length) ∧
    ((crossTable.getD (0 + 1) ⟨none, none⟩).sma_50 = some 3) ∧
    ((crossTable.getD (0 + 1) ⟨none, none⟩).sma_200 = some 2) ∧
    ((crossTable.getD 0 ⟨none, none⟩).sma_50 = some 1) ∧
    ((crossTable.getD 0 ⟨none, none⟩).sma_200 = some 2) ∧
    (((goldenCrossColumn crossTable).getD (0 + 1) false = true ↔
        ((2 : ℚ) < 3 ∧ (1 : ℚ) ≤ 2)) ∧
     ((deathCrossColumn crossTable).getD (0 + 1) false = true ↔
        ((3 : ℚ) < 2 ∧ (2 : ℚ) ≤ 1)) ∧
     (∀ j, ¬ ((goldenCrossColumn crossTable).getD j false = true ∧
       (goldenCrossColumn crossTable).getD (j + 1) false = true)) ∧
     (∀ j, ¬ ((deathCrossColumn crossTable).getD j false = true ∧
       (deathCrossColumn crossTable).getD (j + 1) false = true))) :=
  ⟨by decide, rfl, rfl, rfl, rfl,
    golden_death_cross_edge crossTable 0 (by decide) 3 2 1 2 rfl rfl rfl rfl⟩

/-- C1, counterexample: the ranking key is `roc_1d or -999`, and Python
treats `0.0` as falsy, so a symbol whose `roc_1d` is exactly zero is
keyed −999.  With six symbols whose `roc_1d` values are 0, −1, …, −5,
the code's `top_gainers_1d` drops the zero symbol — the one with the
highest `roc_1d` — while the spec's reading (missing → −999, descending,
stable) keeps it first. -/
theorem c1_counterexample :
    (createPerformanceRankings zeroRocRecords).top_gainers_1d =
      [("B", some (-1)), ("C", some (-2)), ("D", some (-3)), ("E", some (-4)),
       ("F", some (-5))] ∧
    specTopGainers1d zeroRocRecords =
      [("A", some 0), ("B", some (-1)), ("C", some (-2)), ("D", some (-3)),
       ("E", some (-4))] ∧
    (createPerformanceRankings zeroRocRecords).top_gainers_1d ≠
      specTopGainers1d zeroRocRecords := by
  decide

/-- C1, amended: `top_gainers_1d` is the first five records of a stable
descending sort by the coalesced key `roc_1d or -999` — a missing or
zero `roc_1d` both become −999; the sort is a permutation of the input,
sorted descending in that key, every selected record's key is at least
every unselected record's key, and ties (and conflated values) keep
input order.  The rsi ranking coalesces with 0 instead, and
`most_oversold` is the reversed last five of that descending sort, so a
missing `rsi_14` ranks as most oversold (the best case for that
direction, not the worst). -/
theorem top_gainers_ranking (symbols : List SymbolRecord) :
    (createPerformanceRankings symbols).top_gainers_1d =
      ((sortByKeyDesc roc1dKey symbols).take 5).map (fun s => (s.symbol, s.roc_1d)) ∧
    List.Perm (sortByKeyDesc roc1dKey symbols) symbols ∧
    List.Sorted (keyDesc roc1dKey) (sortByKeyDesc roc1dKey symbols) ∧
    (∀ x ∈ (sortByKeyDesc roc1dKey symbols).take 5,
      ∀ y ∈ (sortByKeyDesc roc1dKey symbols).drop 5, roc1dKey y ≤ roc1dKey x) ∧
    (∀ a b : SymbolRecord, List.Sublist [a, b] symbols → roc1dKey b ≤ roc1dKey a →
      List.Sublist [a, b] (sortByKeyDesc roc1dKey symbols)) ∧
    List.Perm (sortByKeyDesc rsiKey symbols) symbols ∧
    List.Sorted (keyDesc rsiKey) (sortByKeyDesc rsiKey symbols) ∧
    (createPerformanceRankings symbols).most_oversold =
      (lastFive (sortByKeyDesc rsiKey symbols)).reverse.map (fun s => (s.symbol, s.rsi_14)) := by
  refine ⟨rfl, List.perm_insertionSort _ _, List.sorted_insertionSort _ _, ?_, ?_,
    List.perm_insertionSort _ _, List.sorted_insertionSort _ _, rfl⟩
  · intro x hx y hy
    exact (List.sorted_insertionSort (keyDesc roc1dKey) symbols).rel_of_mem_take_of_mem_drop
      hx hy
  · intro a b hab hk
    exact List.pair_sublist_insertionSort hk hab

/-- C1, witness: on a concrete two-record list the stability clause
applies — `B` before `F` with the larger key stays before `F` in the
sorted list. -/
theorem top_gainers_ranking_witness :
    List.Sublist [recB, recF] [recB, recF] ∧ roc1dKey recF ≤ roc1dKey recB ∧
    List.Sublist [recB, recF] (sortByKeyDesc roc1dKey [recB, recF]) :=
  ⟨List.Sublist.refl _, by decide,
    (top_gainers_ranking [recB, recF]).2.2.2.2.1 recB recF (List.Sublist.refl _) (by decide)⟩

/-- A symbol without a metadata entry gets priority `(0, datetime.min)`. -/
theorem getSymbolPriority_none (md : String → Option MetaEntry) (t : TickerConfig)
    (h : md t.symbol = none) : getSymbolPriority md t = (0, datetimeMin) := by
  simp [getSymbolPriority, h]

/-- A symbol with a metadata entry gets priority level 1 or 2. -/
theorem getSymbolPriority_some_level (md : String → Option MetaEntry) (t : TickerConfig)
    (m : MetaEntry) (h : md t.symbol = some m) : 1 ≤ (getSymbolPriority md t).1 := by
  simp only [getSymbolPriority, h]
  split <;> simp

/-- A never-fetched symbol compares strictly below (is scheduled ahead
of) every previously fetched symbol, regardless of timestamps. -/
theorem never_fetched_strictly_first (md : String → Option MetaEntry)
    (a b : TickerConfig) (ha : md a.symbol = none) (hb : md b.symbol ≠ none) :
    tickerLE md a b ∧ ¬ tickerLE md b a := by
  cases hmb : md b.symbol with
  | none => exact absurd hmb hb
  | some m =>
    have hpa := getSymbolPriority_none md a ha
    have hlb := getSymbolPriority_some_level md b m hmb
    constructor
    · unfold tickerLE
      rw [hpa]
      exact Or.inl (lt_of_lt_of_le one_pos hlb)
    · unfold tickerLE
      rw [hpa]
      rintro (h | ⟨h, -⟩) <;> omega

/-- C5, counterexample: the claim orders the failed bucket stably by
input position, but the code sorts by `(level, last_updated)`, so within
the failed bucket the staler symbol jumps ahead.  With `A` (failed,
updated at 10) listed before `B` (failed, updated at 5), the code
schedules `B` first, and a batch of size 1 selects `B` where the claim
selects `A`. -/
theorem c5_counterexample :
    getPrioritizedTickers mdTwoFailed [tickFailedLate, tickFailedEarly] =
      [tickFailedEarly, tickFailedLate] ∧
    specClaimOrder mdTwoFailed [tickFailedLate, tickFailedEarly] =
      [tickFailedLate, tickFailedEarly] ∧
    (getPrioritizedTickers mdTwoFailed [tickFailedLate, tickFailedEarly]).take 1 ≠
      (specClaimOrder mdTwoFailed [tickFailedLate, tickFailedEarly]).take 1 := by
  decide

/-- C5, amended: the scheduler selects the first `max_symbols` of a
stable ascending sort by the two-part key `(priority_level,
last_updated)` — never-fetched (level 0, `datetime.min`), failed (level
1), the rest (level 2) — so *within* the failed and normal levels
symbols are ordered by ascending `last_updated`, input order breaking
only exact key ties; a symbol with absent metadata still always precedes
every previously-fetched symbol. -/
theorem scheduler_priority_order (metadata : String → Option MetaEntry)
    (tickers : List TickerConfig) (maxSymbols : Nat) :
    List.Perm (getPrioritizedTickers metadata tickers) tickers ∧
    List.Sorted (tickerLE metadata) (getPrioritizedTickers metadata tickers) ∧
    (∀ a b : TickerConfig, List.Sublist [a, b] tickers → tickerLE metadata a b →
      List.Sublist [a, b] (getPrioritizedTickers metadata tickers)) ∧
    ((getPrioritizedTickers metadata tickers).take maxSymbols).length =
      min maxSymbols tickers.length ∧
    (∀ a b : TickerConfig, metadata a.symbol = none → metadata b.symbol ≠ none →
      tickerLE metadata a b ∧ ¬ tickerLE metadata b a) ∧
    (∀ (i j : Nat) (hi : i < (getPrioritizedTickers metadata tickers).length)
        (hj : j < (getPrioritizedTickers metadata tickers).length),
      metadata ((getPrioritizedTickers metadata tickers).get ⟨i, hi⟩).symbol = none →
      metadata ((getPrioritizedTickers metadata tickers).get ⟨j, hj⟩).symbol ≠ none →
      i < j) := by
  refine ⟨List.perm_insertionSort _ _, List.sorted_insertionSort _ _, ?_, ?_, ?_, ?_⟩
  · intro a b hab hk
    exact List.pair_sublist_insertionSort hk hab
  · rw [List.length_take]
    simp [getPrioritizedTickers]
  · exact fun a b => never_fetched_strictly_first metadata a b
  · intro i j hi hj hni hnj
    rcases Nat.lt_trichotomy i j with h | h | h
    · exact h
    · exfalso
      have : (⟨i, hi⟩ : Fin (getPrioritizedTickers metadata tickers).length) = ⟨j, hj⟩ :=
        Fin.ext h
      rw [this] at hni
      exact hnj hni
    · exfalso
      have hrel := (List.sorted_insertionSort (tickerLE metadata) tickers).rel_get_of_lt
        (show (⟨j, hj⟩ : Fin (getPrioritizedTickers metadata tickers).length) < ⟨i, hi⟩ from h)
      exact (never_fetched_strictly_first metadata _ _ hni hnj).2 hrel

/-- C5, witness: a never-fetched symbol is strictly ahead of a failed
one at a concrete metadata map. -/
theorem scheduler_priority_order_witness :
    mdTwoFailed tickNever.symbol = none ∧ mdTwoFailed tickFailedLate.symbol ≠ none ∧
    (tickerLE mdTwoFailed tickNever tickFailedLate ∧
      ¬ tickerLE mdTwoFailed tickFailedLate tickNever) :=
  ⟨rfl, by decide,
    (scheduler_priority_order mdTwoFailed [] 0).2.2.2.2.1 tickNever tickFailedLate rfl
      (by decide)⟩

/-- Behaviour of the fetch loop when a rate limit strikes after a
rate-limit-free prefix: the loop attempts exactly the prefix plus the
rate-limited ticker, counts the prefix's successes and failures, sets
the rate-limited flag, and leaves the rate-limited symbol marked
`failed: rate_limit` in the metadata. -/
theorem fetchLoop_rateLimit_split (env : FetchEnv) :
    ∀ (pre : List TickerConfig) (t : TickerConfig) (post : List TickerConfig) (st : Storage),
      (∀ u ∈ pre, isRateLimitO (effectiveOutcome env u) = false) →
      isRateLimitO (effectiveOutcome env t) = true →
      (fetchLoop env (pre ++ t :: post) st).attempted = pre ++ [t] ∧
      (fetchLoop env (pre ++ t :: post) st).successful =
        pre.countP (fun u => isSuccessO (effectiveOutcome env u)) ∧
      (fetchLoop env (pre ++ t :: post) st).failed =
        pre.countP (fun u => !isSuccessO (effectiveOutcome env u)) ∧
      (fetchLoop env (pre ++ t :: post) st).rateLimited = true ∧
      (fetchLoop env (pre ++ t :: post) st).store.metadata t.symbol =
        some ⟨some env.now, some "failed: rate_limit", 0⟩
  | [], t, post, st, _, hcur => by
      cases ho : effectiveOutcome env t with
      | none => rw [ho] at hcur; simp [isRateLimitO] at hcur
      | some o =>
        cases o with
        | success d => rw [ho] at hcur; simp [isRateLimitO] at hcur
        | failure m => rw [ho] at hcur; simp [isRateLimitO] at hcur
        | rateLimited m =>
          simp [fetchLoop, fetchSymbol, ho, markSymbolFailed]
  | u :: pre, t, post, st, hpre, hcur => by
      have hu : isRateLimitO (effectiveOutcome env u) = false :=
        hpre u (List.mem_cons_self u pre)
      have hpre' : ∀ v ∈ pre, isRateLimitO (effectiveOutcome env v) = false :=
        fun v hv => hpre v (List.mem_cons_of_mem u hv)
      cases ho : effectiveOutcome env u with
      | none =>
        obtain ⟨ha, hs, hf, hr, hm⟩ := fetchLoop_rateLimit_split env pre t post st hpre' hcur
        refine ⟨?_, ?_, ?_, ?_, ?_⟩ <;>
          simp [fetchLoop, fetchSymbol, ho, ha, hs, hf, hr, hm, isSuccessO,
            List.countP_cons]
      | some o =>
        cases o with
        | success d =>
          obtain ⟨ha, hs, hf, hr, hm⟩ := fetchLoop_rateLimit_split env pre t post
            (saveSymbolData st env.now u.symbol u.type u.category u.api_source d) hpre' hcur
          refine ⟨?_, ?_, ?_, ?_, ?_⟩ <;>
            simp [fetchLoop, fetchSymbol, ho, ha, hs, hf, hr, hm, isSuccessO,
              List.countP_cons]
        | rateLimited m => rw [ho] at hu; simp [isRateLimitO] at hu
        | failure m =>
          obtain ⟨ha, hs, hf, hr, hm⟩ := fetchLoop_rateLimit_split env pre t post
            (markSymbolFailed st env.now u.symbol m) hpre' hcur
          refine ⟨?_, ?_, ?_, ?_, ?_⟩ <;>
            simp [fetchLoop, fetchSymbol, ho, ha, hs, hf, hr, hm, isSuccessO,
              List.countP_cons]

/-- C6: when the data source rate-limits the ticker at position `k` of
the batch (all earlier tickers not rate-limited), `fetch_batch` attempts
only the first `k+1` tickers, reports the successes and failures of the
first `k`, reports `len(tickers) - (successful + failed)` as remaining,
flags the rate limit, and records `failed: rate_limit` for the
rate-limited symbol; and any non-rate-limit fetch error is caught,
recorded as `failed: {error}` in that symbol's metadata, and the loop
proceeds to the rest of the batch. -/
theorem rate_limit_stops_batch (env : FetchEnv) (st : Storage)
    (tickers : List TickerConfig) (maxSymbols k : Nat)
    (hk : k < (batchOf st tickers maxSymbols).length)
    (hpre : ∀ t ∈ (batchOf st tickers maxSymbols).take k,
      isRateLimitO (effectiveOutcome env t) = false)
    (hcur : isRateLimitO (effectiveOutcome env
      ((batchOf st tickers maxSymbols).getD k tickerDefault)) = true) :
    (fetchBatch env st tickers maxSymbols).2.attempted =
      (batchOf st tickers maxSymbols).take (k + 1) ∧
    (fetchBatch env st tickers maxSymbols).1.successful =
      ((batchOf st tickers maxSymbols).take k).countP
        (fun t => isSuccessO (effectiveOutcome env t)) ∧
    (fetchBatch env st tickers maxSymbols).1.failed =
      ((batchOf st tickers maxSymbols).take k).countP
        (fun t => !isSuccessO (effectiveOutcome env t)) ∧
    (fetchBatch env st tickers maxSymbols).1.remaining =
      tickers.length -
        ((fetchBatch env st tickers maxSymbols).1.successful +
          (fetchBatch env st tickers maxSymbols).1.failed) ∧
    (fetchBatch env st tickers maxSymbols).1.rateLimited = true ∧
    (fetchBatch env st tickers maxSymbols).2.store.metadata
        ((batchOf st tickers maxSymbols).getD k tickerDefault).symbol =
      some ⟨some env.now, some "failed: rate_limit", 0⟩ ∧
    (∀ (st' : Storage) (t : TickerConfig) (msg : String) (rest : List TickerConfig),
      effectiveOutcome env t = some (.failure msg) →
      fetchSymbol env st' t = (.notOk, markSymbolFailed st' env.now t.symbol msg) ∧
      (markSymbolFailed st' env.now t.symbol msg).metadata t.symbol =
        some ⟨some env.now, some ("failed: " ++ msg), 0⟩ ∧
      fetchLoop env (t :: rest) st' =
        ⟨(fetchLoop env rest (markSymbolFailed st' env.now t.symbol msg)).successful,
         (fetchLoop env rest (markSymbolFailed st' env.now t.symbol msg)).failed + 1,
         (fetchLoop env rest (markSymbolFailed st' env.now t.symbol msg)).rateLimited,
         (fetchLoop env rest (markSymbolFailed st' env.now t.symbol msg)).store,
         t :: (fetchLoop env rest (markSymbolFailed st' env.now t.symbol msg)).attempted⟩) := by
  have hget : (batchOf st tickers maxSymbols).getD k tickerDefault =
      (batchOf st tickers maxSymbols).get ⟨k, hk⟩ := by
    rw [List.getD_eq_getElem _ _ hk, List.get_eq_getElem]
  rw [hget] at hcur
  have hsplit : batchOf st tickers maxSymbols =
      (batchOf st tickers maxSymbols).take k ++
        ((batchOf st tickers maxSymbols).get ⟨k, hk⟩ ::
          (batchOf st tickers maxSymbols).drop (k + 1)) := by
    conv_lhs => rw [← List.take_append_drop k (batchOf st tickers maxSymbols)]
    rw [List.drop_eq_getElem_cons hk, List.get_eq_getElem]
  have hloop : (fetchBatch env st tickers maxSymbols).2 =
      fetchLoop env (batchOf st tickers maxSymbols) st := rfl
  obtain ⟨ha, hs, hf, hr, hm⟩ := fetchLoop_rateLimit_split env
    ((batchOf st tickers maxSymbols).take k)
    ((batchOf st tickers maxSymbols).get ⟨k, hk⟩)
    ((batchOf st tickers maxSymbols).drop (k + 1)) st hpre hcur
  rw [← hsplit] at ha hs hf hr hm
  refine ⟨?_, ?_, ?_, rfl, ?_, ?_, ?_⟩
  · rw [hloop, ha, ← List.take_concat_get _ _ hk]
    simp [List.concat_eq_append, List.get_eq_getElem]
  · exact hs
  · exact hf
  · exact hr
  · rw [hget]
    exact hm
  · intro st' t msg rest hfail
    refine ⟨by simp [fetchSymbol, hfail], by simp [markSymbolFailed], ?_⟩
    simp [fetchLoop, fetchSymbol, hfail]

/-- C6, witness: the claim's scenario — five enabled symbols, a batch of
five, the data source rate-limits the third — yields 2 successes, 0
failures, 3 remaining in the queue, and only the first three symbols
attempted. -/
theorem rate_limit_stops_batch_witness :
    (2 < (batchOf stEmpty fiveTickers 5).length) ∧
    (fetchBatch envRateLimit stEmpty fiveTickers 5).1.successful = 2 ∧
    (fetchBatch envRateLimit stEmpty fiveTickers 5).1.failed = 0 ∧
    (fetchBatch envRateLimit stEmpty fiveTickers 5).1.remaining = 3 ∧
    (fetchBatch envRateLimit stEmpty fiveTickers 5).1.rateLimited = true ∧
    (fetchBatch envRateLimit stEmpty fiveTickers 5).2.attempted = fiveTickers.take 3 := by
  have hk : 2 < (batchOf stEmpty fiveTickers 5).length := by decide
  have h := rate_limit_stops_batch envRateLimit stEmpty fiveTickers 5 2 hk
    (by decide) (by decide)
  refine ⟨hk, ?_, ?_, ?_, h.2.2.2.2.1, ?_⟩
  · rw [h.2.1]
    decide
  · rw [h.2.2.1]
    decide
  · rw [h.2.2.2.1, h.2.1, h.2.2.1]
    decide
  · rw [h.1]
    decide

/-- C3, witness: the aggregate target is written atomically while the
raw-plus-metadata write trace touches its target directly, at concrete
paths and contents. -/
theorem write_discipline_witness :
    atomicFor ⟨"data/analytics/aggregated/latest_values", ".json"⟩
      (saveAtomicTrace ⟨"data/analytics/aggregated/latest_values", ".json"⟩ "agg") ∧
    ¬ atomicFor rawSpyPath (writeJsonTrace rawSpyPath "raw") ∧
    ¬ atomicFor rawSpyPath (saveAnalyticsTrace rawSpyPath "raw") ∧
    ¬ atomicFor rawSpyPath (saveSymbolDataTrace rawSpyPath metadataPath "raw" "meta") :=
  write_discipline "data/analytics/aggregated/latest_values" "agg" rawSpyPath "raw" "raw"
    "meta" metadataPath

/-- C4, witness: the amended exit codes at the concrete message `boom`. -/
theorem entry_script_exit_codes_witness :
    runFetchExitCode RunOutcome.ok = 0 ∧
    runFetchExitCode (RunOutcome.valueError "boom") = 1 ∧
    runFetchExitCode (RunOutcome.unexpectedError "boom") = 1 ∧
    runAnalyticsExitCode RunOutcome.ok = 0 ∧
    runAnalyticsExitCode (RunOutcome.unexpectedError "boom") = 0 ∧
    runFredExitCode (RunOutcome.unexpectedError "boom") = 0 ∧
    runExportExitCode (RunOutcome.unexpectedError "boom") = 0 :=
  entry_script_exit_codes "boom"

/-- C9, witness: saving a fresh bar under `BTC-USD` into a store that
only holds `data/raw/BTC_USD.json` merges it into that file and
rewrites the identity fields. -/
theorem sanitize_not_injective_witness :
    loadSymbolData (saveSymbolData stBtc 2 "BTC-USD" "crypto" "Crypto" "alpha_vantage"
        [freshBar]) "BTC_USD" =
      some { symbol := "BTC-USD", type := "crypto", category := "Crypto",
             api_source := "alpha_vantage", last_updated := 2,
             data := mergeData btcUnderscoreFile.data [freshBar] } := by
  have h := (sanitize_not_injective stBtc 2 "crypto" "Crypto" "alpha_vantage"
    [freshBar]).2.2.2.2.2.2.2.2
  exact h.trans (by decide)

end MarketDashboard
